import Mathlib

/-!
Verification of the OpenAlex citation-aggregation and second-order
notability-ranking core of `streamlit_app.py`.

The Python functions `get_citing_works`, `citing_countries`,
`ImpactFactorDB.get`, `notability_score` and `second_order` are embedded
shallowly below.  Conventions of the embedding:

* A JSON field of a fetched record may be absent, `null`, or carry a value
  (`JField`).  `dict.get(k, d)` on such a field yields `Option` values where
  Lean's `none` stands for Python's `None`.
* The HTTP layer is a caller-supplied provider function
  `work-id → per-page → cursor → Except Err Page`; `requests` exceptions are
  `Except.error` values.  A Python `TypeError` (e.g. `None + 1`) is modelled
  as `Err.typeError`; the `KeyError` raised by
  `pd.DataFrame([]).sort_values(...)` on an empty row list is `Err.keyError`.
* Python floats are modelled as `ℚ`, with `math.log10` abstracted as a
  parameter `lg : ℚ → ℚ` (no claim depends on its numeric values).
* Python dicts are insertion-ordered association lists: updating an existing
  key keeps its position, a new key is appended (`dictInsert`).
-/

set_option maxHeartbeats 1000000

deriving instance DecidableEq for Except

namespace NiwAssist

/-- A JSON field slot: absent key, explicit `null`, or a value. -/
inductive JField (α : Type) where
  | absent
  | null
  | val (a : α)
  deriving DecidableEq, Repr

/-- Python `d.get(key, dflt)` for a string field: `none` is Python `None`. -/
def jGetD (f : JField String) (dflt : String) : Option String :=
  match f with
  | .absent => some dflt
  | .null => none
  | .val s => some s

/-- An institution entry of an authorship, as in an OpenAlex work record. -/
structure Institution where
  display_name : Option String
  country_code : Option String
  deriving DecidableEq, Repr

/-- An authorship entry of an OpenAlex work record. -/
structure Authorship where
  institutions : List Institution
  deriving DecidableEq, Repr

/-- The `host_venue` object of an OpenAlex work record. -/
structure Venue where
  display_name : JField String
  deriving DecidableEq, Repr

/-- An OpenAlex work record, restricted to the fields the core logic reads. -/
structure Work where
  id : JField String
  display_name : JField String
  host_venue : Option Venue
  publication_year : JField String
  cited_by_count : JField Nat
  authorships : List Authorship
  deriving DecidableEq, Repr

/-- Python `work.get("cited_by_count", 0)`: absent key defaults to `0`,
an explicit `null` yields Python `None` (Lean `none`). -/
def citedGet (w : Work) : Option Nat :=
  match w.cited_by_count with
  | .absent => some 0
  | .null => none
  | .val n => some n

/-- `wid = w.get("id")` followed by the truthiness gate `if not wid`:
yields the identifier only when it is a present, non-empty string. -/
def truthyId (w : Work) : Option String :=
  match w.id with
  | .val s => if s = "" then none else some s
  | _ => none

/-- Boolean contiguous-sublist test on character lists. -/
def isInfixB (p : List Char) : List Char → Bool
  | [] => p.isEmpty
  | c :: rest => p.isPrefixOf (c :: rest) || isInfixB p rest

/-- Python substring containment `k in v`. -/
def pyIn (k v : String) : Bool := isInfixB k.data v.data

/-- ASCII lowering of one character (the venue/institution strings the
source compares are ASCII, so this models Python `str.lower`). -/
def lowerChar (c : Char) : Char :=
  if 65 ≤ c.toNat ∧ c.toNat ≤ 90 then Char.ofNat (c.toNat + 32) else c

/-- Python `s.lower()` (ASCII). -/
def pyLower (s : String) : String := ⟨s.data.map lowerChar⟩

/-- ASCII raising of one character (models Python `str.upper` on the
two-letter country codes the source uppercases). -/
def upperChar (c : Char) : Char :=
  if 97 ≤ c.toNat ∧ c.toNat ≤ 122 then Char.ofNat (c.toNat - 32) else c

/-- Python `s.upper()` (ASCII). -/
def pyUpper (s : String) : String := ⟨s.data.map upperChar⟩

/-- ASCII whitespace, as stripped by Python `str.strip`. -/
def isWs (c : Char) : Bool := c = ' ' || c = '\t' || c = '\n' || c = '\r'

/-- Python `s.strip()`: drop whitespace from both ends. -/
def pyStrip (s : String) : String :=
  ⟨((s.data.dropWhile isWs).reverse.dropWhile isWs).reverse⟩

/-- The fixed prestige-venue substrings (`TOP_VENUES` in the source). -/
def TOP_VENUES : List String :=
  ["nature", "science", "cell", "pnas", "jacs", "advanced materials",
   "angewandte", "energy & environmental science", "neurips", "icml",
   "iclr", "cvpr", "aaai", "kdd", "www", "acl"]

/-- The fixed prestige-institution substrings (`TOP_INSTITUTIONS`). -/
def TOP_INSTITUTIONS : List String :=
  ["mit", "stanford", "harvard", "berkeley", "caltech", "oxford",
   "cambridge", "google", "deepmind", "openai", "meta ai", "microsoft",
   "ibm", "tsinghua", "pku", "ustc", "zhejiang"]

/-- Association-list lookup (Python dict read). -/
def alookup {β : Type} : List (String × β) → String → Option β
  | [], _ => none
  | (k, b) :: rest, k' => if k = k' then some b else alookup rest k'

/-- Python dict assignment `d[k] = b`: update in place keeps the key's
insertion position, a new key is appended at the end. -/
def dictInsert {β : Type} : List (String × β) → String → β → List (String × β)
  | [], k, b => [(k, b)]
  | (k', b') :: rest, k, b =>
    if k' = k then (k, b) :: rest else (k', b') :: dictInsert rest k b

/-- The impact-factor table: lowercased, stripped venue name ↦ factor. -/
structure ImpactFactorDB where
  lookup : List (String × ℚ)
  deriving DecidableEq

/-- `ImpactFactorDB.get` from the source: empty/`None` venue gives `0.0`;
otherwise look up the lowercased, stripped venue name; otherwise `25.0`
when it contains a prestige-venue substring; otherwise `0.0`. -/
def ImpactFactorDB.get (db : ImpactFactorDB) (venue : Option String) : ℚ :=
  match venue with
  | none => 0
  | some vs =>
    if vs = "" then 0
    else
      let v := pyStrip (pyLower vs)
      match alookup db.lookup v with
      | some f => f
      | none => if TOP_VENUES.any (fun k => pyIn k v) then 25 else 0

/-- `((work.get("host_venue") or {}).get("display_name") or "")`. -/
def venueOrEmpty (w : Work) : String :=
  match w.host_venue with
  | none => ""
  | some v =>
    match v.display_name with
    | .val s => s
    | _ => ""

/-- The lowercased, non-empty institution display names of a work
(the `insts` list built inside `notability_score`). -/
def instNames (w : Work) : List String :=
  w.authorships.flatMap fun a =>
    a.institutions.filterMap fun i =>
      let nm := pyLower (i.display_name.getD "")
      if nm = "" then none else some nm

/-- `notability_score(work, ifdb)`.  Returns `none` when Python would raise
a `TypeError` (`cited_by_count` explicitly `null`, so `c + 1` is `None + 1`). -/
def notability_score (lg : ℚ → ℚ) (work : Work) (ifdb : ImpactFactorDB) :
    Option ℚ :=
  match citedGet work with
  | none => none
  | some c =>
    let venue := venueOrEmpty work
    let insts := instNames work
    let bonus : ℚ :=
      (if TOP_VENUES.any (fun k => pyIn k (pyLower venue)) then 1 else 0) +
      (if insts.any (fun x => TOP_INSTITUTIONS.any (fun k => pyIn k x))
        then 1 else 0)
    let ifv := ifdb.get (some venue)
    some (lg ((c : ℚ) + 1) + bonus + lg (ifv + 1))

/-- Errors of the embedded pipeline. -/
inductive Err where
  | http (code : Nat)
  | typeError
  | keyError
  deriving DecidableEq, Repr

/-- One page of an OpenAlex `/works` response: the `results` list and
`meta.next_cursor` (`none` when the key is absent or `null`). -/
structure Page where
  results : List Work
  next_cursor : Option String
  deriving DecidableEq, Repr

/-- The page-fetching loop body of `get_citing_works`.  Fuel is the number
of `for _ in range(max_pages)` iterations left; the walk stops early when
the returned next cursor is falsy (absent or the empty string). -/
def gcw_go (fetchPage : String → Except Err Page) :
    Nat → List Work → String → Except Err (List Work)
  | 0, out, _ => .ok out
  | n + 1, out, cursor =>
    match fetchPage cursor with
    | .error e => .error e
    | .ok j =>
      let out2 := out ++ j.results
      match j.next_cursor with
      | none => .ok out2
      | some c => if c = "" then .ok out2 else gcw_go fetchPage n out2 c

/-- `get_citing_works(openalex_id, per_page, max_pages)`, parameterised by
the page fetcher (the provider already applied to the work id and
per-page).  The cursor starts at the sentinel `"*"`. -/
def get_citing_works (fetchPage : String → Except Err Page)
    (max_pages : Nat) : Except Err (List Work) :=
  gcw_go fetchPage max_pages [] "*"

/-- `counts[cc] = counts.get(cc, 0) + 1`. -/
def bump (m : List (String × Nat)) (cc : String) : List (String × Nat) :=
  dictInsert m cc ((alookup m cc).getD 0 + 1)

/-- The innermost loop body of `citing_countries`: skip a falsy country
code, otherwise uppercase it and bump its counter. -/
def instStep (m : List (String × Nat)) (i : Institution) :
    List (String × Nat) :=
  match i.country_code with
  | some cc => if cc = "" then m else bump m (pyUpper cc)
  | none => m

/-- The nested country-tally loop of `citing_countries`: for every work,
authorship and institution with a truthy country code, uppercase the code
and bump its counter. -/
def countsOf (ws : List Work) : List (String × Nat) :=
  ws.foldl
    (fun m w =>
      w.authorships.foldl (fun m a => a.institutions.foldl instStep m) m)
    []

/-- `citing_countries(openalex_id)`: fetch all citing works with the fixed
policy `per_page=200, max_pages=8`, then tally institution countries.
Returns the `(counts, citing)` pair. -/
def citing_countries (provider : String → Nat → String → Except Err Page)
    (openalex_id : String) :
    Except Err (List (String × Nat) × List Work) :=
  match get_citing_works (provider openalex_id 200) 8 with
  | .error e => .error e
  | .ok citing => .ok (countsOf citing, citing)

/-- One step of the second-hop dedup merge inside `second_order`:
works with a falsy `id` are skipped; a new key is inserted; an existing key
is replaced only when the candidate's cited-by count is strictly greater.
`Except.error` models the `TypeError` of comparing `None` counts. -/
def mergeStep (m : List (String × Work)) (s : Work) :
    Except Unit (List (String × Work)) :=
  match truthyId s with
  | none => .ok m
  | some sid =>
    match alookup m sid with
    | none => .ok (dictInsert m sid s)
    | some prev =>
      match citedGet s, citedGet prev with
      | some a, some b => if b < a then .ok (dictInsert m sid s) else .ok m
      | _, _ => .error ()

/-- The `for s in sub` merge loop.  An exception inside the loop is caught
by the per-first-hop-work `except: pass`, so the merge truncates: updates
made before the failing element persist, the rest of `sub` is dropped. -/
def mergeSub (m : List (String × Work)) : List Work → List (String × Work)
  | [] => m
  | s :: rest =>
    match mergeStep m s with
    | .ok m2 => mergeSub m2 rest
    | .error _ => m

/-- One first-hop iteration of `second_order`: skip a falsy id, fetch the
work's citers with the second-hop budget, merge them; a fetch error is
swallowed (`except: pass`) and the table is left unchanged. -/
def l1Step (provider : String → Nat → String → Except Err Page)
    (per_l2 pages_l2 : Nat) (m : List (String × Work)) (w : Work) :
    List (String × Work) :=
  match truthyId w with
  | none => m
  | some wid =>
    match get_citing_works (provider wid per_l2) pages_l2 with
    | .error _ => m
    | .ok sub => mergeSub m sub

/-- The first-hop loop of `second_order`. -/
def l1Fold (provider : String → Nat → String → Except Err Page)
    (per_l2 pages_l2 : Nat) (m : List (String × Work)) (l1 : List Work) :
    List (String × Work) :=
  l1.foldl (l1Step provider per_l2 pages_l2) m

/-- One output row of `second_order` (a row of the returned DataFrame). -/
structure Row where
  title : Option String
  venue : Option String
  IF : ℚ
  year : Option String
  cited_by : Nat
  openalex_id : Option String
  score : ℚ
  deriving DecidableEq

/-- `venue=(s.get("host_venue") or {}).get("display_name","")` in the row
loop of `second_order`: a missing venue object or key gives `""`, an
explicit `null` display name gives Python `None`. -/
def rowVenue (s : Work) : Option String :=
  match s.host_venue with
  | none => some ""
  | some v => jGetD v.display_name ""

/-- Build one output row of `second_order`; `none` when `notability_score`
raises (`null` cited-by count). -/
def buildRow (lg : ℚ → ℚ) (ifdb : ImpactFactorDB) (s : Work) : Option Row :=
  match notability_score lg s ifdb with
  | none => none
  | some sc =>
    let venue := rowVenue s
    some
      { title := jGetD s.display_name ""
        venue := venue
        IF := ifdb.get venue
        year := jGetD s.publication_year ""
        cited_by := (citedGet s).getD 0
        openalex_id := jGetD s.id ""
        score := sc }

/-- The row-building loop of `second_order` over the merged map's values;
`none` when any row raises. -/
def buildRows (lg : ℚ → ℚ) (ifdb : ImpactFactorDB) :
    List Work → Option (List Row)
  | [] => some []
  | s :: rest =>
    match buildRow lg ifdb s with
    | none => none
    | some r => (buildRows lg ifdb rest).map (r :: ·)

/-- The comparator of `sort_values(["score","cited_by","IF"],
ascending=False)`: `rowLe a b` holds when `a` may precede `b`, i.e. the
key triple of `a` is lexicographically ≥ that of `b`. -/
def rowLe (a b : Row) : Bool :=
  decide (b.score < a.score ∨ (b.score = a.score ∧
    (b.cited_by < a.cited_by ∨ (b.cited_by = a.cited_by ∧ b.IF ≤ a.IF))))

/-- `second_order(openalex_id, ifdb, per_l1, pages_l1, per_l2, pages_l2)`.
A first-hop fetch error propagates; second-hop errors are swallowed by
`l1Fold`/`mergeSub`; a `null` cited-by count in a surviving work raises in
the row loop; an empty row list raises `KeyError` in
`pd.DataFrame([]).sort_values(...)`. -/
def second_order (lg : ℚ → ℚ)
    (provider : String → Nat → String → Except Err Page)
    (openalex_id : String) (ifdb : ImpactFactorDB)
    (per_l1 pages_l1 per_l2 pages_l2 : Nat) : Except Err (List Row) :=
  match get_citing_works (provider openalex_id per_l1) pages_l1 with
  | .error e => .error e
  | .ok l1 =>
    match buildRows lg ifdb
        ((l1Fold provider per_l2 pages_l2 [] l1).map Prod.snd) with
    | none => .error .typeError
    | some rows =>
      if rows = [] then .error .keyError
      else .ok (rows.mergeSort rowLe)

/-! ### Spec-side definitions

Definitions written from the claims' wording, to be compared with the
embedded source functions. -/

/-- Claim-side "case-insensitively contains": the (lowercase) prestige
substring `k` occurs in the lowercased haystack. -/
def ciContains (hay k : String) : Bool := pyIn k (pyLower hay)

/-- C1's impact-factor rule as claimed: the exact lowercase venue-name
entry of the table if present, else 25 if the venue contains a
prestige-venue substring, else 0. -/
def claimImpactFactor (tbl : List (String × ℚ)) (venue : String) : ℚ :=
  match alookup tbl (pyLower venue) with
  | some f => f
  | none => if TOP_VENUES.any (fun k => ciContains venue k) then 25 else 0

/-- All author institution names of a work (claim-side, unfiltered). -/
def instNamesAll (w : Work) : List String :=
  w.authorships.flatMap fun a => a.institutions.map fun i => i.display_name.getD ""

/-- C1's score formula exactly as claimed. -/
def claimScore (lg : ℚ → ℚ) (w : Work) (tbl : List (String × ℚ)) : ℚ :=
  lg (((citedGet w).getD 0 : ℚ) + 1)
  + (if TOP_VENUES.any (fun k => ciContains (venueOrEmpty w) k) then 1 else 0)
  + (if (instNamesAll w).any
        (fun nm => TOP_INSTITUTIONS.any (fun k => ciContains nm k))
      then 1 else 0)
  + lg (claimImpactFactor tbl (venueOrEmpty w) + 1)

/-- C1's impact-factor rule as amended: 0 for the empty venue name, else
the table entry under the stripped lowercase venue name if present, else
25 if the stripped lowercase venue contains a prestige-venue substring,
else 0. -/
def amendedImpactFactor (tbl : List (String × ℚ)) (venue : String) : ℚ :=
  if venue = "" then 0
  else
    match alookup tbl (pyStrip (pyLower venue)) with
    | some f => f
    | none =>
      if TOP_VENUES.any (fun k => pyIn k (pyStrip (pyLower venue))) then 25
      else 0

/-- C1's score formula with the amended impact-factor rule. -/
def amendedScore (lg : ℚ → ℚ) (w : Work) (tbl : List (String × ℚ)) : ℚ :=
  lg (((citedGet w).getD 0 : ℚ) + 1)
  + (if TOP_VENUES.any (fun k => ciContains (venueOrEmpty w) k) then 1 else 0)
  + (if (instNamesAll w).any
        (fun nm => TOP_INSTITUTIONS.any (fun k => ciContains nm k))
      then 1 else 0)
  + lg (amendedImpactFactor tbl (venueOrEmpty w) + 1)

/-- Conflict resolution of C2: the occurrence with the strictly greater
cited-by count wins, ties keep the earlier (current) one. -/
def betterOf (cur cand : Work) : Work :=
  if (citedGet cur).getD 0 < (citedGet cand).getD 0 then cand else cur

/-- Left fold of `betterOf` over candidates, seeded with the current
table entry (if any). -/
def pickFold (start : Option Work) (l : List Work) : Option Work :=
  l.foldl
    (fun acc w =>
      match acc with
      | none => some w
      | some v => some (betterOf v w))
    start

/-- The surviving occurrence C2 predicts for a given identifier: among
the works carrying that identifier, in order, keep the strictly better
one at each step. -/
def bestFor (sid : String) (ws : List Work) : Option Work :=
  pickFold none (ws.filter fun w => decide (truthyId w = some sid))

/-- C3's three-key descending order: `a` may precede `b` iff `a`'s
(score, cited_by, IF) triple is lexicographically ≥ `b`'s. -/
def keyGE (a b : Row) : Prop :=
  b.score < a.score ∨ (b.score = a.score ∧
    (b.cited_by < a.cited_by ∨ (b.cited_by = a.cited_by ∧ b.IF ≤ a.IF)))

/-- The uppercased country code of an institution, when present and
non-empty. -/
def codeOf (i : Institution) : Option String :=
  match i.country_code with
  | some cc => if cc = "" then none else some (pyUpper cc)
  | none => none

/-- All qualifying (work, authorship, institution) country codes of a
citing-work list, uppercased, in traversal order (claim C4). -/
def qualifyingCodes (ws : List Work) : List String :=
  (ws.flatMap fun w => w.authorships.flatMap fun a => a.institutions).filterMap
    codeOf

/-- C4's predicted count for one country code: the number of qualifying
(work, authorship, institution) hits mapping to that code. -/
def specCountryCount (ws : List Work) (code : String) : Nat :=
  (qualifyingCodes ws).count code

/-- Folding the counter bump over a flat list of codes. -/
def tally (m : List (String × Nat)) (cs : List String) : List (String × Nat) :=
  cs.foldl bump m

/-- Replace the provider's behaviour for one cited-work id. -/
def overrideP (p : String → Nat → String → Except Err Page) (bad : String)
    (f : Nat → String → Except Err Page) :
    String → Nat → String → Except Err Page :=
  fun wid per cur => if wid = bad then f per cur else p wid per cur

/-- A per-work fetcher that always fails. -/
def errFetch (e : Err) : Nat → String → Except Err Page := fun _ _ => .error e

/-- A per-work fetcher that always returns an empty final page. -/
def emptyFetch : Nat → String → Except Err Page := fun _ _ => .ok ⟨[], none⟩

/-- The concatenation of the first `n` provider pages along the cursor
chain starting at `c` (claim C7: "in provider order"). -/
def iterPages (pg : String → List Work) (nxt : String → String) :
    Nat → String → List Work
  | 0, _ => []
  | n + 1, c => pg c ++ iterPages pg nxt n (nxt c)

/-- The concatenation of the index-traced pages `rs 0 ++ ... ++ rs (k-1)`
(claim C8's walk prefix). -/
def concatPages (rs : Nat → List Work) : Nat → List Work
  | 0 => []
  | k + 1 => rs 0 ++ concatPages (fun i => rs (i + 1)) k

/-! ### Concrete fixtures -/

/-- The abstract log10 collapsed to the constant 0 (instances where only
the bonus structure matters). -/
def lgZero : ℚ → ℚ := fun _ => 0

/-- The abstract log10 taken as the identity (counterexample instances
where the two if-terms must stay distinguishable). -/
def lgId : ℚ → ℚ := fun q => q

/-- An empty impact-factor table. -/
def dbEmpty : ImpactFactorDB := ⟨[]⟩

/-- C1 counterexample work: venue name with a trailing blank. -/
def c1work : Work :=
  { id := .val "W1", display_name := .val "paper",
    host_venue := some ⟨.val "Nature "⟩, publication_year := .val "2020",
    cited_by_count := .val 0, authorships := [] }

/-- C1 counterexample table: an exact entry for the stripped venue. -/
def c1tbl : List (String × ℚ) := [("nature", 3)]

/-- C2 fixture: two works sharing the identifier "X" with the given
cited-by count. -/
def c2w (n : Nat) : Work :=
  { id := .val "X", display_name := .val "t", host_venue := none,
    publication_year := .absent, cited_by_count := .val n, authorships := [] }

/-- A work fixture with an id, a venue, one institution and a count. -/
def mkW (i : String) (t : String) (v : String) (nm : Option String)
    (cited : Nat) : Work :=
  { id := .val i, display_name := .val t,
    host_venue := some ⟨.val v⟩, publication_year := .val "2020",
    cited_by_count := .val cited,
    authorships := match nm with
      | none => []
      | some s => [⟨[⟨some s, none⟩]⟩] }

/-- C3 fixture: the single first-hop work. -/
def c3f : Work :=
  { id := .val "F", display_name := .val "f", host_venue := none,
    publication_year := .absent, cited_by_count := .val 1, authorships := [] }

/-- C3 second-hop work with score 2 and 10 citations. -/
def c3wA : Work := mkW "A" "ta" "nature" (some "MIT") 10

/-- C3 second-hop work with score 2 and 20 citations. -/
def c3wB : Work := mkW "B" "tb" "science" (some "Stanford") 20

/-- C3 second-hop work with score 1. -/
def c3wC : Work := mkW "C" "tc" "cell" none 1

/-- C3 provider: root "R" has one citer `c3f`, which is cited by
`c3wA`, `c3wB`, `c3wC`. -/
def c3provider : String → Nat → String → Except Err Page :=
  fun wid _ _ =>
    if wid = "R" then .ok ⟨[c3f], none⟩
    else if wid = "F" then .ok ⟨[c3wA, c3wB, c3wC], none⟩
    else .ok ⟨[], none⟩

/-- The row `second_order` produces for `c3wA` under `lgZero`. -/
def c3rowA : Row :=
  { title := some "ta", venue := some "nature", IF := 25,
    year := some "2020", cited_by := 10, openalex_id := some "A", score := 2 }

/-- The row `second_order` produces for `c3wB` under `lgZero`. -/
def c3rowB : Row :=
  { title := some "tb", venue := some "science", IF := 25,
    year := some "2020", cited_by := 20, openalex_id := some "B", score := 2 }

/-- The row `second_order` produces for `c3wC` under `lgZero`. -/
def c3rowC : Row :=
  { title := some "tc", venue := some "cell", IF := 25,
    year := some "2020", cited_by := 1, openalex_id := some "C", score := 1 }

/-- C4 citing work with one US institution. -/
def c4w1 : Work :=
  { id := .val "C1", display_name := .val "t1", host_venue := none,
    publication_year := .absent, cited_by_count := .val 0,
    authorships := [⟨[⟨some "I1", some "us"⟩]⟩] }

/-- C4 citing work with one US institution. -/
def c4w2 : Work :=
  { id := .val "C2", display_name := .val "t2", host_venue := none,
    publication_year := .absent, cited_by_count := .val 0,
    authorships := [⟨[⟨some "I2", some "US"⟩]⟩] }

/-- C4 citing work with a US and a DE institution on two authors. -/
def c4w3 : Work :=
  { id := .val "C3", display_name := .val "t3", host_venue := none,
    publication_year := .absent, cited_by_count := .val 0,
    authorships := [⟨[⟨some "I3", some "US"⟩]⟩, ⟨[⟨some "I4", some "de"⟩]⟩] }

/-- C4 provider: "W1" has exactly the three citing works above. -/
def c4provider : String → Nat → String → Except Err Page :=
  fun wid _ _ =>
    if wid = "W1" then .ok ⟨[c4w1, c4w2, c4w3], none⟩ else .ok ⟨[], none⟩

/-- C5 fixture citing work (page 1). -/
def c5w : Work :=
  { id := .val "P1", display_name := .val "t", host_venue := none,
    publication_year := .absent, cited_by_count := .val 0, authorships := [] }

/-- C5 provider: a good first page with a next cursor, then a transport
error on the second page. -/
def c5provider : String → Nat → String → Except Err Page :=
  fun _ _ cur =>
    if cur = "*" then .ok ⟨[c5w], some "p2"⟩ else .error (.http 500)

/-- C6 first-hop works. -/
def c6fA : Work :=
  { id := .val "A", display_name := .val "fa", host_venue := none,
    publication_year := .absent, cited_by_count := .val 1, authorships := [] }

/-- C6 first-hop work whose second-hop fetch fails. -/
def c6fB : Work :=
  { id := .val "B", display_name := .val "fb", host_venue := none,
    publication_year := .absent, cited_by_count := .val 1, authorships := [] }

/-- C6 first-hop works. -/
def c6fC : Work :=
  { id := .val "C", display_name := .val "fc", host_venue := none,
    publication_year := .absent, cited_by_count := .val 1, authorships := [] }

/-- C6 second-hop work contributed by `c6fA`. -/
def c6x : Work :=
  { id := .val "X", display_name := .val "tx", host_venue := none,
    publication_year := .val "2021", cited_by_count := .val 7,
    authorships := [] }

/-- C6 second-hop work contributed by `c6fC`. -/
def c6y : Work :=
  { id := .val "Y", display_name := .val "ty", host_venue := none,
    publication_year := .val "2021", cited_by_count := .val 3,
    authorships := [] }

/-- C6 provider: three first-hop works; the second-hop fetch for "B"
raises a transport error. -/
def c6provider : String → Nat → String → Except Err Page :=
  fun wid _ _ =>
    if wid = "R" then .ok ⟨[c6fA, c6fB, c6fC], none⟩
    else if wid = "A" then .ok ⟨[c6x], none⟩
    else if wid = "B" then .error (.http 503)
    else if wid = "C" then .ok ⟨[c6y], none⟩
    else .ok ⟨[], none⟩

/-- The row `second_order` produces for `c6x` under `lgZero`. -/
def c6rowX : Row :=
  { title := some "tx", venue := some "", IF := 0, year := some "2021",
    cited_by := 7, openalex_id := some "X", score := 0 }

/-- The row `second_order` produces for `c6y` under `lgZero`. -/
def c6rowY : Row :=
  { title := some "ty", venue := some "", IF := 0, year := some "2021",
    cited_by := 3, openalex_id := some "Y", score := 0 }

/-- C7 witness record. -/
def c7w : Work :=
  { id := .val "P", display_name := .val "t", host_venue := none,
    publication_year := .absent, cited_by_count := .val 0, authorships := [] }

/-- C7 witness page contents: every page holds exactly `c7w`. -/
def c7pg : String → List Work := fun _ => [c7w]

/-- C7 witness cursor map: every page points at cursor "c". -/
def c7nxt : String → String := fun _ => "c"

/-- C7 witness fetcher: always a full page with a non-empty next cursor. -/
def c7fetch : String → Except Err Page :=
  fun cur => .ok ⟨c7pg cur, some (c7nxt cur)⟩

/-- C8 record on the page after the empty page. -/
def c8w : Work :=
  { id := .val "L2", display_name := .val "t", host_venue := none,
    publication_year := .absent, cited_by_count := .val 0, authorships := [] }

/-- C8 counterexample fetcher: the first page is empty but carries a
non-empty next cursor; the second page has a record and ends the walk. -/
def c8fetch : String → Except Err Page :=
  fun cur =>
    if cur = "*" then .ok ⟨[], some "n"⟩
    else if cur = "n" then .ok ⟨[c8w], none⟩
    else .ok ⟨[], none⟩

/-- C8 witness record. -/
def c8v : Work :=
  { id := .val "V", display_name := .val "t", host_venue := none,
    publication_year := .absent, cited_by_count := .val 0, authorships := [] }

/-- C8 witness fetcher: one page with an absent next cursor. -/
def c8wfetch : String → Except Err Page := fun _ => .ok ⟨[c8v], none⟩

/-- C8 witness cursor trace. -/
def c8cs : Nat → String := fun _ => "*"

/-- C8 witness page trace. -/
def c8rs : Nat → List Work := fun _ => [c8v]

/-- C9 counterexample: a fetched record whose `cited_by_count` is an
explicit JSON `null`. -/
def c9null : Work :=
  { id := .val "N", display_name := .val "t", host_venue := none,
    publication_year := .val "2020", cited_by_count := .null,
    authorships := [] }

/-- C9 witness first-hop work: absent title, venue, year and cited-by
count, one institution without any fields. -/
def c9a : Work :=
  { id := .val "A", display_name := .absent, host_venue := none,
    publication_year := .absent, cited_by_count := .absent,
    authorships := [⟨[⟨none, none⟩]⟩] }

/-- C9 witness second-hop work: `null` venue display name and `null`
year, absent cited-by count. -/
def c9b : Work :=
  { id := .val "B", display_name := .val "tb",
    host_venue := some ⟨.null⟩, publication_year := .null,
    cited_by_count := .absent, authorships := [] }

/-- C9 witness provider. -/
def c9provider : String → Nat → String → Except Err Page :=
  fun wid _ _ =>
    if wid = "W" then .ok ⟨[c9a], none⟩
    else if wid = "A" then .ok ⟨[c9b], none⟩
    else .ok ⟨[], none⟩

/-- C10 first-hop work. -/
def c10f : Work :=
  { id := .val "F", display_name := .val "f", host_venue := none,
    publication_year := .absent, cited_by_count := .val 1, authorships := [] }

/-- C10 second-hop work. -/
def c10w : Work :=
  { id := .val "X", display_name := .val "tw", host_venue := none,
    publication_year := .val "2022", cited_by_count := .val 4,
    authorships := [] }

/-- C10 provider. -/
def c10provider : String → Nat → String → Except Err Page :=
  fun wid _ _ =>
    if wid = "R" then .ok ⟨[c10f], none⟩
    else if wid = "F" then .ok ⟨[c10w], none⟩
    else .ok ⟨[], none⟩

/-- The row `second_order` produces for `c10w` under `lgZero`. -/
def c10row : Row :=
  { title := some "tw", venue := some "", IF := 0, year := some "2022",
    cited_by := 4, openalex_id := some "X", score := 0 }

/-! ### Association-list laws -/

theorem alookup_dictInsert_self {β : Type} (m : List (String × β)) (k : String)
    (b : β) : alookup (dictInsert m k b) k = some b := by
  induction m with
  | nil => simp [dictInsert, alookup]
  | cons p rest ih =>
    by_cases h : p.1 = k
    · simp [dictInsert, h, alookup]
    · simp [dictInsert, h, alookup, ih]

theorem alookup_dictInsert_ne {β : Type} (m : List (String × β))
    (k k' : String) (b : β) (h : k ≠ k') :
    alookup (dictInsert m k b) k' = alookup m k' := by
  induction m with
  | nil => simp [dictInsert, alookup, h]
  | cons p rest ih =>
    by_cases hp : p.1 = k
    · simp [dictInsert, hp, alookup, h]
    · simp [dictInsert, hp, alookup, ih]

theorem mem_dictInsert {β : Type} {p : String × β} {m : List (String × β)}
    {k : String} {b : β} (h : p ∈ dictInsert m k b) : p = (k, b) ∨ p ∈ m := by
  induction m with
  | nil => simpa [dictInsert] using h
  | cons q rest ih =>
    by_cases hq : q.1 = k
    · rcases (by simpa [dictInsert, hq] using h) with h1 | h1
      · exact Or.inl h1
      · exact Or.inr (List.mem_cons_of_mem q h1)
    · rcases (by simpa [dictInsert, hq] using h) with h1 | h1
      · exact Or.inr (by simp [h1])
      · rcases ih h1 with h2 | h2
        · exact Or.inl h2
        · exact Or.inr (List.mem_cons_of_mem q h2)

theorem mem_of_alookup {β : Type} {m : List (String × β)} {k : String}
    {v : β} (h : alookup m k = some v) : (k, v) ∈ m := by
  induction m with
  | nil => simp [alookup] at h
  | cons p rest ih =>
    by_cases hp : p.1 = k
    · have : some p.2 = some v := by simpa [alookup, hp] using h
      have hv : p.2 = v := by injection this
      exact (by simp [← hp, ← hv] : (k, v) ∈ p :: rest)
    · have h2 : alookup rest k = some v := by simpa [alookup, hp] using h
      exact List.mem_cons_of_mem p (ih h2)

theorem keys_dictInsert {β : Type} {x : String} {m : List (String × β)}
    {k : String} {b : β} (h : x ∈ (dictInsert m k b).map Prod.fst) :
    x ∈ m.map Prod.fst ∨ x = k := by
  rcases List.mem_map.mp h with ⟨p, hp, rfl⟩
  rcases mem_dictInsert hp with h1 | h1
  · exact Or.inr (by rw [h1])
  · exact Or.inl (List.mem_map_of_mem Prod.fst h1)

theorem nodup_keys_dictInsert {β : Type} (m : List (String × β))
    (k : String) (b : β) (h : (m.map Prod.fst).Nodup) :
    ((dictInsert m k b).map Prod.fst).Nodup := by
  induction m with
  | nil => simp [dictInsert]
  | cons p rest ih =>
    by_cases hp : p.1 = k
    · simpa [dictInsert, hp] using h
    · rw [List.map_cons, List.nodup_cons] at h
      have hmem : p.1 ∉ (dictInsert rest k b).map Prod.fst := by
        intro hin
        rcases keys_dictInsert hin with h1 | h1
        · exact h.1 h1
        · exact hp h1
      simpa [dictInsert, hp, List.nodup_cons, hmem] using ih h.2

/-! ### The country tally as a flat fold (claim C4) -/

theorem tally_append (m : List (String × Nat)) (cs ds : List String) :
    tally m (cs ++ ds) = tally (tally m cs) ds := by
  simp [tally, List.foldl_append]

theorem filterMap_flatMap_eq {α γ δ : Type} (l : List α) (g : α → List γ)
    (f : γ → Option δ) :
    (l.flatMap g).filterMap f = l.flatMap fun x => (g x).filterMap f := by
  induction l with
  | nil => simp
  | cons x xs ih => simp [List.flatMap_cons, List.filterMap_append, ih]

theorem inst_tally (ins : List Institution) (m : List (String × Nat)) :
    ins.foldl instStep m = tally m (ins.filterMap codeOf) := by
  induction ins generalizing m with
  | nil => simp [tally]
  | cons i rest ih =>
    rcases hc : i.country_code with _ | cc
    · simp [List.foldl_cons, instStep, hc, codeOf, ih]
    · by_cases he : cc = ""
      · simp [List.foldl_cons, instStep, hc, codeOf, he, ih]
      · simp [List.foldl_cons, instStep, hc, codeOf, he, ih, tally, bump]

theorem auth_tally (as : List Authorship) (m : List (String × Nat)) :
    as.foldl (fun m a => a.institutions.foldl instStep m) m =
      tally m (as.flatMap fun a => a.institutions.filterMap codeOf) := by
  induction as generalizing m with
  | nil => simp [tally]
  | cons a rest ih =>
    rw [List.foldl_cons, ih, inst_tally, List.flatMap_cons, tally_append]

theorem countsOf_tally (ws : List Work) :
    countsOf ws =
      tally []
        (ws.flatMap fun w =>
          w.authorships.flatMap fun a => a.institutions.filterMap codeOf) := by
  suffices h : ∀ (l : List Work) (m : List (String × Nat)),
      l.foldl
          (fun m w =>
            w.authorships.foldl (fun m a => a.institutions.foldl instStep m) m)
          m =
        tally m
          (l.flatMap fun w =>
            w.authorships.flatMap fun a => a.institutions.filterMap codeOf) by
    exact h ws []
  intro l
  induction l with
  | nil => intro m; simp [tally]
  | cons w rest ih =>
    intro m
    rw [List.foldl_cons, ih, auth_tally, List.flatMap_cons, tally_append]

theorem qualifyingCodes_flat (ws : List Work) :
    qualifyingCodes ws =
      ws.flatMap fun w =>
        w.authorships.flatMap fun a => a.institutions.filterMap codeOf := by
  unfold qualifyingCodes
  rw [filterMap_flatMap_eq]
  refine List.flatMap_congr ?_
  intro w _
  rw [filterMap_flatMap_eq]

theorem alookup_tally (cs : List String) (m : List (String × Nat))
    (k : String) :
    alookup (tally m cs) k =
      if cs.count k = 0 then alookup m k
      else some ((alookup m k).getD 0 + cs.count k) := by
  induction cs generalizing m with
  | nil => simp [tally]
  | cons c rest ih =>
    by_cases hc : c = k
    · subst hc
      have hstep : tally m (c :: rest) = tally (bump m c) rest := by
        simp [tally]
      rw [hstep, ih]
      have h1 : alookup (bump m c) c = some ((alookup m c).getD 0 + 1) :=
        alookup_dictInsert_self m c _
      by_cases hr : rest.count c = 0
      · simp [hr, List.count_cons, h1]
      · simp [hr, List.count_cons, h1]
        omega
    · have hstep : tally m (c :: rest) = tally (bump m c) rest := by
        simp [tally]
      rw [hstep, ih]
      have h1 : alookup (bump m c) k = alookup m k :=
        alookup_dictInsert_ne m c k _ hc
      simp [h1, List.count_cons, hc]

/-! ### The dedup merge keeps the best occurrence (claim C2) -/

theorem citedGet_ne_none {w : Work} (h : w.cited_by_count ≠ .null) :
    citedGet w ≠ none := by
  cases hc : w.cited_by_count with
  | absent => simp [citedGet, hc]
  | null => exact absurd hc h
  | val n => simp [citedGet, hc]

theorem pickFold_cons (start : Option Work) (x : Work) (l : List Work) :
    pickFold start (x :: l) =
      pickFold
        (match start with
          | none => some x
          | some v => some (betterOf v x))
        l := rfl

theorem mergeStep_ok_shape {m m2 : List (String × Work)} {s : Work}
    (h : mergeStep m s = .ok m2) :
    m2 = m ∨ ∃ sid, truthyId s = some sid ∧ m2 = dictInsert m sid s := by
  unfold mergeStep at h
  cases ht : truthyId s with
  | none =>
    simp only [ht] at h
    exact Or.inl (by injection h with h; exact h.symm)
  | some sid =>
    simp only [ht] at h
    cases hlk : alookup m sid with
    | none =>
      simp only [hlk] at h
      exact Or.inr ⟨sid, rfl, by injection h with h; exact h.symm⟩
    | some prev =>
      simp only [hlk] at h
      cases ha : citedGet s with
      | none => simp only [ha] at h; exact absurd h (by simp)
      | some a =>
        simp only [ha] at h
        cases hb : citedGet prev with
        | none => simp only [hb] at h; exact absurd h (by simp)
        | some b =>
          simp only [hb] at h
          by_cases hba : b < a
          · rw [if_pos hba] at h
            exact Or.inr ⟨sid, rfl, by injection h with h; exact h.symm⟩
          · rw [if_neg hba] at h
            exact Or.inl (by injection h with h; exact h.symm)

theorem nodup_keys_mergeSub (ws : List Work) :
    ∀ m : List (String × Work), (m.map Prod.fst).Nodup →
      ((mergeSub m ws).map Prod.fst).Nodup := by
  induction ws with
  | nil => intro m h; exact h
  | cons s rest ih =>
    intro m h
    cases hstep : mergeStep m s with
    | error e => simpa [mergeSub, hstep] using h
    | ok m2 =>
      have h2 : (m2.map Prod.fst).Nodup := by
        rcases mergeStep_ok_shape hstep with h1 | ⟨sid, _, h1⟩
        · rw [h1]; exact h
        · rw [h1]; exact nodup_keys_dictInsert m sid s h
      simpa [mergeSub, hstep] using ih m2 h2

theorem mergeSub_alookup (sid : String) (ws : List Work) :
    ∀ m : List (String × Work),
      (∀ w ∈ ws, citedGet w ≠ none) →
      (∀ p ∈ m, citedGet p.2 ≠ none) →
      alookup (mergeSub m ws) sid =
        pickFold (alookup m sid)
          (ws.filter fun w => decide (truthyId w = some sid)) := by
  induction ws with
  | nil => intro m _ _; rfl
  | cons s rest ih =>
    intro m hw hm
    have hwrest : ∀ w ∈ rest, citedGet w ≠ none := fun w h2 =>
      hw w (List.mem_cons_of_mem s h2)
    cases ht : truthyId s with
    | none =>
      have hstep : mergeStep m s = .ok m := by simp [mergeStep, ht]
      rw [show mergeSub m (s :: rest) = mergeSub m rest from by
        simp [mergeSub, hstep]]
      rw [List.filter_cons_of_neg (by simp [ht])]
      exact ih m hwrest hm
    | some sid2 =>
      cases hlk : alookup m sid2 with
      | none =>
        have hstep : mergeStep m s = .ok (dictInsert m sid2 s) := by
          simp [mergeStep, ht, hlk]
        have hm2 : ∀ p ∈ dictInsert m sid2 s, citedGet p.2 ≠ none := by
          intro p hp
          rcases mem_dictInsert hp with h1 | h1
          · rw [h1]; exact hw s (List.mem_cons_self s rest)
          · exact hm p h1
        rw [show mergeSub m (s :: rest) = mergeSub (dictInsert m sid2 s) rest
          from by simp [mergeSub, hstep]]
        rw [ih _ hwrest hm2]
        by_cases hss : sid2 = sid
        · subst hss
          rw [alookup_dictInsert_self,
            List.filter_cons_of_pos (by simp [ht]), pickFold_cons, hlk]
        · rw [alookup_dictInsert_ne m sid2 sid s hss,
            List.filter_cons_of_neg (by simp [ht, hss])]
      | some prev =>
        obtain ⟨a, ha⟩ := Option.ne_none_iff_exists'.mp
          (hw s (List.mem_cons_self s rest))
        obtain ⟨b, hb⟩ := Option.ne_none_iff_exists'.mp
          (hm (sid2, prev) (mem_of_alookup hlk))
        by_cases hba : b < a
        · have hstep : mergeStep m s = .ok (dictInsert m sid2 s) := by
            simp [mergeStep, ht, hlk, ha, hb, hba]
          have hm2 : ∀ p ∈ dictInsert m sid2 s, citedGet p.2 ≠ none := by
            intro p hp
            rcases mem_dictInsert hp with h1 | h1
            · rw [h1]; exact hw s (List.mem_cons_self s rest)
            · exact hm p h1
          rw [show mergeSub m (s :: rest) = mergeSub (dictInsert m sid2 s) rest
            from by simp [mergeSub, hstep]]
          rw [ih _ hwrest hm2]
          by_cases hss : sid2 = sid
          · subst hss
            rw [alookup_dictInsert_self,
              List.filter_cons_of_pos (by simp [ht]), pickFold_cons, hlk]
            simp only [betterOf]
            rw [ha, show citedGet prev = some b from hb]
            simp [hba]
          · rw [alookup_dictInsert_ne m sid2 sid s hss,
              List.filter_cons_of_neg (by simp [ht, hss])]
        · have hstep : mergeStep m s = .ok m := by
            simp [mergeStep, ht, hlk, ha, hb, hba]
          rw [show mergeSub m (s :: rest) = mergeSub m rest from by
            simp [mergeSub, hstep]]
          rw [ih _ hwrest hm]
          by_cases hss : sid2 = sid
          · subst hss
            rw [List.filter_cons_of_pos (by simp [ht]), pickFold_cons, hlk]
            simp only [betterOf]
            rw [ha, show citedGet prev = some b from hb]
            simp [hba]
          · rw [List.filter_cons_of_neg (by simp [ht, hss])]

/-- Claim C2 (confirmed).  In `second_order`'s merge of second-hop works
into the id-keyed table: the surviving entry for an identifier is the left
fold that replaces the stored occurrence only on a strictly greater
cited-by count (ties keep the first seen); the table's keys stay distinct,
so exactly one row survives per identifier; and occurrences with counts 5
and 9 in either order leave the single row with count 9. -/
theorem c2_dedup_merge_keeps_strict_max :
    (∀ (ws : List Work) (sid : String),
        (∀ w ∈ ws, w.cited_by_count ≠ JField.null) →
        alookup (mergeSub [] ws) sid = bestFor sid ws) ∧
      (∀ ws : List Work, ((mergeSub [] ws).map Prod.fst).Nodup) ∧
      mergeSub [] [c2w 5, c2w 9] = [("X", c2w 9)] ∧
      mergeSub [] [c2w 9, c2w 5] = [("X", c2w 9)] := by
  refine ⟨?_, ?_, by decide, by decide⟩
  · intro ws sid hn
    exact mergeSub_alookup sid ws []
      (fun w h2 => citedGet_ne_none (hn w h2)) (by intro p hp; simp at hp)
  · intro ws
    exact nodup_keys_mergeSub ws [] (by simp)

/-- Witness for C2: the characterisation evaluated on the 5/9 pair. -/
theorem c2_dedup_merge_keeps_strict_max_witness :
    alookup (mergeSub [] [c2w 5, c2w 9]) "X" = bestFor "X" [c2w 5, c2w 9] :=
  c2_dedup_merge_keeps_strict_max.1 [c2w 5, c2w 9] "X" (by decide)

/-! ### Claim C4: country aggregation counts every qualifying hit -/

/-- Claim C4 (confirmed).  The aggregated table gives each country code
exactly the number of (citing work, authorship, institution) triples whose
present, non-empty country code uppercases to it (absent when zero); and
the three-citing-works scenario through `citing_countries` yields
US ↦ 3, DE ↦ 1 with the raw list returned untouched. -/
theorem c4_citing_countries_per_institution_counts :
    (∀ (ws : List Work) (code : String),
        alookup (countsOf ws) code =
          if specCountryCount ws code = 0 then none
          else some (specCountryCount ws code)) ∧
      citing_countries c4provider "W1" =
        .ok ([("US", 3), ("DE", 1)], [c4w1, c4w2, c4w3]) := by
  refine ⟨?_, by decide⟩
  intro ws code
  rw [countsOf_tally, ← qualifyingCodes_flat, alookup_tally]
  simp [specCountryCount, alookup]

/-! ### Claim C5: first-hop fetch errors abort and surface -/

/-- Claim C5 (confirmed).  Whenever the page walk of the first-hop fetch
fails, `citing_countries` returns exactly that error and no partial
country table; concretely, a transport error on the second page aborts
the whole fetch. -/
theorem c5_first_hop_error_aborts :
    (∀ (provider : String → Nat → String → Except Err Page) (id : String)
        (e : Err),
        get_citing_works (provider id 200) 8 = .error e →
        citing_countries provider id = .error e) ∧
      get_citing_works (c5provider "W" 200) 8 = .error (.http 500) := by
  refine ⟨?_, by decide⟩
  intro provider id e h
  unfold citing_countries
  rw [h]

/-- Witness for C5: the propagation applied to the concrete provider whose
second page raises, showing `citing_countries` surfaces the error. -/
theorem c5_first_hop_error_aborts_witness :
    citing_countries c5provider "W" = .error (.http 500) :=
  c5_first_hop_error_aborts.1 c5provider "W" (.http 500) (by decide)

/-! ### Pagination (claims C7 and C8) -/

theorem gcw_go_iter (fetch : String → Except Err Page) (pg : String → List Work)
    (nxt : String → String) (h1 : ∀ c, fetch c = .ok ⟨pg c, some (nxt c)⟩)
    (h2 : ∀ c, nxt c ≠ "") :
    ∀ (n : Nat) (out : List Work) (c : String),
      gcw_go fetch n out c = .ok (out ++ iterPages pg nxt n c) := by
  intro n
  induction n with
  | zero => intro out c; simp [gcw_go, iterPages]
  | succ k ih =>
    intro out c
    simp only [gcw_go, h1 c]
    rw [if_neg (h2 c), ih (out ++ pg c) (nxt c)]
    simp [iterPages, List.append_assoc]

theorem iterPages_length (pg : String → List Work) (nxt : String → String)
    (psz : Nat) (h3 : ∀ c, (pg c).length = psz) :
    ∀ (n : Nat) (c : String), (iterPages pg nxt n c).length = n * psz := by
  intro n
  induction n with
  | zero => intro c; simp [iterPages]
  | succ k ih =>
    intro c
    simp [iterPages, h3 c, ih (nxt c)]
    ring

/-- Claim C7 (confirmed).  Against a provider that always answers a full
page of `psz` records with a non-empty next cursor, the page walk runs for
exactly `max_pages` pages: the result is the in-order concatenation of the
first `max_pages` pages and holds `max_pages * psz` records — the cap, not
the provider's cursor, bounds the walk. -/
theorem c7_page_cap_bounds_walk :
    ∀ (fetch : String → Except Err Page) (pg : String → List Work)
      (nxt : String → String) (psz max_pages : Nat),
      (∀ c, fetch c = .ok ⟨pg c, some (nxt c)⟩) →
      (∀ c, nxt c ≠ "") →
      (∀ c, (pg c).length = psz) →
      get_citing_works fetch max_pages =
          .ok (iterPages pg nxt max_pages "*") ∧
        (iterPages pg nxt max_pages "*").length = max_pages * psz := by
  intro fetch pg nxt psz mp h1 h2 h3
  refine ⟨?_, iterPages_length pg nxt psz h3 mp "*"⟩
  have h := gcw_go_iter fetch pg nxt h1 h2 mp [] "*"
  simpa [get_citing_works] using h

/-- Witness for C7: three full one-record pages with live cursors give
exactly 3 × 1 records. -/
theorem c7_page_cap_bounds_walk_witness :
    get_citing_works c7fetch 3 = .ok (iterPages c7pg c7nxt 3 "*") ∧
      (iterPages c7pg c7nxt 3 "*").length = 3 * 1 :=
  c7_page_cap_bounds_walk c7fetch c7pg c7nxt 1 3 (fun _ => rfl)
    (fun c => by unfold c7nxt; decide) (fun _ => rfl)

theorem gcw_go_stops (fetch : String → Except Err Page) :
    ∀ (k : Nat) (cs : Nat → String) (rs : Nat → List Work)
      (ncv : Option String) (n : Nat) (out : List Work),
      k < n →
      (∀ i, i < k →
        fetch (cs i) = .ok ⟨rs i, some (cs (i + 1))⟩ ∧ cs (i + 1) ≠ "") →
      fetch (cs k) = .ok ⟨rs k, ncv⟩ →
      (ncv = none ∨ ncv = some "") →
      gcw_go fetch n out (cs 0) = .ok (out ++ concatPages rs (k + 1)) := by
  intro k
  induction k with
  | zero =>
    intro cs rs ncv n out hkn hchain hfin hncv
    cases n with
    | zero => omega
    | succ m =>
      simp only [gcw_go, hfin]
      rcases hncv with h | h <;> subst h <;> simp [concatPages]
  | succ k ih =>
    intro cs rs ncv n out hkn hchain hfin hncv
    cases n with
    | zero => omega
    | succ m =>
      obtain ⟨h0, h0ne⟩ := hchain 0 (Nat.succ_pos k)
      simp only [gcw_go, h0]
      rw [if_neg h0ne,
        ih (fun i => cs (i + 1)) (fun i => rs (i + 1)) ncv m (out ++ rs 0)
          (by omega) (fun i hi => hchain (i + 1) (by omega)) hfin hncv]
      simp [concatPages, List.append_assoc]

/-- Claim C8 counterexample.  The first page is empty but carries a
non-empty next cursor; contrary to the claim, the walk does not stop
there: the record of the second page appears in the result. -/
theorem c8_empty_page_with_cursor_continues :
    get_citing_works c8fetch 8 = .ok [c8w] := by decide

/-- Claim C8 (amended).  The page walk stops at the first page whose next
cursor is absent or empty, or after `max_pages` pages, whichever comes
first; an empty results page with a live cursor does not stop it.  Along
a cursor trace whose page `k` (before the cap) is the first with a falsy
next cursor, the result is exactly the concatenation of pages 0..k. -/
theorem c8_walk_stops_at_falsy_cursor_or_cap :
    ∀ (fetch : String → Except Err Page) (cs : Nat → String)
      (rs : Nat → List Work) (ncv : Option String) (k max_pages : Nat),
      k < max_pages → cs 0 = "*" →
      (∀ i, i < k →
        fetch (cs i) = .ok ⟨rs i, some (cs (i + 1))⟩ ∧ cs (i + 1) ≠ "") →
      fetch (cs k) = .ok ⟨rs k, ncv⟩ →
      (ncv = none ∨ ncv = some "") →
      get_citing_works fetch max_pages = .ok (concatPages rs (k + 1)) := by
  intro fetch cs rs ncv k mp hk h0 hchain hfin hncv
  have h := gcw_go_stops fetch k cs rs ncv mp [] hk hchain hfin hncv
  rw [h0] at h
  simpa [get_citing_works] using h

/-- Witness for C8 (amended): a single page with an absent next cursor
ends the walk immediately. -/
theorem c8_walk_stops_witness :
    get_citing_works c8wfetch 8 = .ok (concatPages c8rs 1) :=
  c8_walk_stops_at_falsy_cursor_or_cap c8wfetch c8cs c8rs none 0 8
    (by omega) rfl (fun i hi => absurd hi (Nat.not_lt_zero i)) rfl (Or.inl rfl)

/-! ### The notability score formula (claim C1) -/

theorem inst_any (p : String → Bool) (hp : p "" = false)
    (ins : List Institution) :
    (ins.filterMap fun i =>
        let nm := pyLower (i.display_name.getD "")
        if nm = "" then none else some nm).any p =
      (ins.map fun i => i.display_name.getD "").any fun nm => p (pyLower nm) := by
  induction ins with
  | nil => rfl
  | cons i rest ih =>
    by_cases h : pyLower (i.display_name.getD "") = ""
    · simp [List.filterMap_cons, h, hp, ih]
    · simp [List.filterMap_cons, h, ih]

theorem instNames_any (w : Work) (p : String → Bool) (hp : p "" = false) :
    (instNames w).any p = (instNamesAll w).any fun nm => p (pyLower nm) := by
  unfold instNames instNamesAll
  induction w.authorships with
  | nil => rfl
  | cons a rest ih =>
    simp only [List.flatMap_cons, List.any_append, inst_any p hp, ih]

theorem get_eq_amended (tbl : List (String × ℚ)) (venue : String) :
    ImpactFactorDB.get ⟨tbl⟩ (some venue) = amendedImpactFactor tbl venue := rfl

unseal Rat.add in
/-- Claim C1 counterexample.  For the venue name "Nature " (trailing
blank) and the table entry ("nature", 3), the source strips the venue
before the table lookup and scores with factor 3, while the claimed
formula (exact lowercase lookup, no strip) misses the entry and falls
back to factor 25 — so the claimed equality fails. -/
theorem c1_notability_formula_counterexample :
    notability_score lgId c1work ⟨c1tbl⟩ ≠
      some (claimScore lgId c1work c1tbl) := by decide

/-- Claim C1 (amended).  `notability_score` equals
log10(cited_by_count + 1), plus 1.0 if the venue name case-insensitively
contains a prestige-venue substring, plus 1.0 if any author institution
name case-insensitively contains a prestige-institution substring, plus
log10(impact_factor + 1) — where impact_factor is 0 for the empty venue
name, else the table entry under the *stripped* lowercase venue name if
present, else 25 when the stripped lowercase venue contains a
prestige-venue substring, else 0.  (Quantified over the abstract `log10`;
requires the cited-by count not to be an explicit `null`, cf. C9.) -/
theorem c1_notability_formula_amended :
    ∀ (lg : ℚ → ℚ) (w : Work) (tbl : List (String × ℚ)),
      w.cited_by_count ≠ JField.null →
      notability_score lg w ⟨tbl⟩ = some (amendedScore lg w tbl) := by
  intro lg w tbl h
  obtain ⟨c, hc⟩ := Option.ne_none_iff_exists'.mp (citedGet_ne_none h)
  have hb : ((instNames w).any fun x =>
      TOP_INSTITUTIONS.any fun k => pyIn k x) =
      ((instNamesAll w).any fun nm =>
        TOP_INSTITUTIONS.any fun k => ciContains nm k) := by
    rw [instNames_any w (fun x => TOP_INSTITUTIONS.any fun k => pyIn k x)
      (by decide)]
    rfl
  simp only [notability_score, amendedScore, hc, Option.getD_some, ciContains,
    ← get_eq_amended, hb]
  congr 1
  ring

/-- Witness for C1 (amended): the amended formula evaluated at the
counterexample work and table. -/
theorem c1_notability_formula_amended_witness :
    notability_score lgId c1work ⟨c1tbl⟩ =
      some (amendedScore lgId c1work c1tbl) :=
  c1_notability_formula_amended lgId c1work c1tbl (by decide)

/-! ### The output ordering of second_order (claim C3) -/

theorem rowLe_trans : ∀ a b c : Row, rowLe a b → rowLe b c → rowLe a c := by
  intro a b c hab hbc
  simp only [rowLe, decide_eq_true_eq] at hab hbc ⊢
  rcases hab with h1 | ⟨h1, h2⟩
  · rcases hbc with g1 | ⟨g1, g2⟩
    · exact Or.inl (g1.trans h1)
    · exact Or.inl (by rw [g1]; exact h1)
  · rcases hbc with g1 | ⟨g1, g2⟩
    · exact Or.inl (by rw [← h1]; exact g1)
    · refine Or.inr ⟨g1.trans h1, ?_⟩
      rcases h2 with h2 | ⟨h2, h3⟩
      · rcases g2 with g2 | ⟨g2, g3⟩
        · exact Or.inl (g2.trans h2)
        · exact Or.inl (by rw [g2]; exact h2)
      · rcases g2 with g2 | ⟨g2, g3⟩
        · exact Or.inl (by rw [← h2]; exact g2)
        · exact Or.inr ⟨g2.trans h2, g3.trans h3⟩

theorem rowLe_total : ∀ a b : Row, (rowLe a b || rowLe b a) = true := by
  intro a b
  simp only [rowLe, Bool.or_eq_true, decide_eq_true_eq]
  rcases lt_trichotomy b.score a.score with h | h | h
  · exact Or.inl (Or.inl h)
  · rcases lt_trichotomy b.cited_by a.cited_by with h2 | h2 | h2
    · exact Or.inl (Or.inr ⟨h, Or.inl h2⟩)
    · rcases le_total b.IF a.IF with h3 | h3
      · exact Or.inl (Or.inr ⟨h, Or.inr ⟨h2, h3⟩⟩)
      · exact Or.inr (Or.inr ⟨h.symm, Or.inr ⟨h2.symm, h3⟩⟩)
    · exact Or.inr (Or.inr ⟨h.symm, Or.inl h2⟩)
  · exact Or.inr (Or.inl h)

unseal Rat.add List.merge List.mergeSort in
/-- Claim C3 (confirmed).  Every successful `second_order` result is
sorted descending by the (score, cited_by_count, impact factor) three-key
chain — score dominates, then raw citations, then impact factor; and the
law instance with scores [2, 2, 1] and cited counts [10, 20] among the
tied pair comes out as score-2/cited-20, score-2/cited-10, score-1. -/
theorem c3_ranking_sorted_by_score_cited_if :
    (∀ (lg : ℚ → ℚ) (provider : String → Nat → String → Except Err Page)
        (id : String) (ifdb : ImpactFactorDB) (p1 g1 p2 g2 : Nat)
        (rows : List Row),
        second_order lg provider id ifdb p1 g1 p2 g2 = .ok rows →
        rows.Pairwise keyGE) ∧
      second_order lgZero c3provider "R" dbEmpty 1 1 1 1 =
        .ok [c3rowB, c3rowA, c3rowC] := by
  refine ⟨?_, by decide⟩
  intro lg provider id ifdb p1 g1 p2 g2 rows h
  unfold second_order at h
  split at h
  · exact absurd h (by simp)
  · split at h
    · exact absurd h (by simp)
    · split at h
      · exact absurd h (by simp)
      · injection h with h
        subst h
        exact (List.sorted_mergeSort rowLe_trans rowLe_total _).imp
          fun hab => of_decide_eq_true hab

unseal Rat.add List.merge List.mergeSort in
/-- Witness for C3: the sortedness fact applied to the concrete law
instance. -/
theorem c3_ranking_sorted_witness :
    ([c3rowB, c3rowA, c3rowC] : List Row).Pairwise keyGE :=
  c3_ranking_sorted_by_score_cited_if.1 lgZero c3provider "R" dbEmpty 1 1 1 1
    [c3rowB, c3rowA, c3rowC] (by decide)

/-! ### Second-hop errors are swallowed (claim C6) -/

theorem l1Step_override (provider : String → Nat → String → Except Err Page)
    (bad : String) (e : Err) (p2 g2 : Nat) (m : List (String × Work))
    (w : Work) :
    l1Step (overrideP provider bad (errFetch e)) p2 g2 m w =
      l1Step (overrideP provider bad emptyFetch) p2 g2 m w := by
  unfold l1Step
  cases ht : truthyId w with
  | none => rfl
  | some wid =>
    simp only []
    by_cases hw : wid = bad
    · have h1 : overrideP provider bad (errFetch e) wid p2 =
          fun _ => .error e := by
        funext cur
        simp [overrideP, hw, errFetch]
      have h2 : overrideP provider bad emptyFetch wid p2 =
          fun _ => .ok ⟨[], none⟩ := by
        funext cur
        simp [overrideP, hw, emptyFetch]
      rw [h1, h2]
      cases g2 with
      | zero => rfl
      | succ n => rfl
    · have h1 : overrideP provider bad (errFetch e) wid p2 =
          provider wid p2 := by
        funext cur
        simp [overrideP, hw]
      have h2 : overrideP provider bad emptyFetch wid p2 =
          provider wid p2 := by
        funext cur
        simp [overrideP, hw]
      rw [h1, h2]

theorem l1Fold_override (provider : String → Nat → String → Except Err Page)
    (bad : String) (e : Err) (p2 g2 : Nat) :
    ∀ (l1 : List Work) (m : List (String × Work)),
      l1Fold (overrideP provider bad (errFetch e)) p2 g2 m l1 =
        l1Fold (overrideP provider bad emptyFetch) p2 g2 m l1 := by
  intro l1
  induction l1 with
  | nil => intro m; rfl
  | cons w rest ih =>
    intro m
    show l1Fold (overrideP provider bad (errFetch e)) p2 g2
        (l1Step (overrideP provider bad (errFetch e)) p2 g2 m w) rest =
      l1Fold (overrideP provider bad emptyFetch) p2 g2
        (l1Step (overrideP provider bad emptyFetch) p2 g2 m w) rest
    rw [l1Step_override provider bad e p2 g2 m w]
    exact ih _

unseal Rat.add List.merge List.mergeSort in
/-- Claim C6 (confirmed).  A failing second-hop fetch for one first-hop
work is swallowed: the ranking equals the one where that work simply
contributes no second-hop records, and no error is surfaced; concretely,
with three first-hop works and the middle one's fetch failing, the
ranking is produced from the other two works' citers. -/
theorem c6_second_hop_error_swallowed :
    (∀ (lg : ℚ → ℚ) (provider : String → Nat → String → Except Err Page)
        (id : String) (ifdb : ImpactFactorDB) (p1 g1 p2 g2 : Nat)
        (bad : String) (e : Err), bad ≠ id →
        second_order lg (overrideP provider bad (errFetch e)) id ifdb
            p1 g1 p2 g2 =
          second_order lg (overrideP provider bad emptyFetch) id ifdb
            p1 g1 p2 g2) ∧
      second_order lgZero c6provider "R" dbEmpty 1 1 1 1 =
        .ok [c6rowX, c6rowY] := by
  refine ⟨?_, by decide⟩
  intro lg provider id ifdb p1 g1 p2 g2 bad e hbad
  have hroot : ∀ f : Nat → String → Except Err Page,
      overrideP provider bad f id p1 = provider id p1 := by
    intro f
    funext cur
    exact if_neg fun h => hbad h.symm
  unfold second_order
  rw [hroot (errFetch e), hroot emptyFetch]
  cases hg : get_citing_works (provider id p1) g1 with
  | error e2 => simp only [hg]
  | ok l1 =>
    simp only [hg]
    rw [l1Fold_override provider bad e p2 g2 l1 []]

unseal Rat.add List.merge List.mergeSort in
/-- Witness for C6: the swallow/omit equality at the concrete provider. -/
theorem c6_second_hop_error_swallowed_witness :
    second_order lgZero (overrideP c6provider "B" (errFetch (.http 503)))
        "R" dbEmpty 1 1 1 1 =
      second_order lgZero (overrideP c6provider "B" emptyFetch)
        "R" dbEmpty 1 1 1 1 :=
  c6_second_hop_error_swallowed.1 lgZero c6provider "R" dbEmpty 1 1 1 1 "B"
    (.http 503) (by decide)

/-! ### Malformed-field handling (claim C9) -/

theorem gcw_results_mem (fetch : String → Except Err Page) :
    ∀ (n : Nat) (out : List Work) (c : String) (ws : List Work),
      gcw_go fetch n out c = .ok ws →
      ∀ w ∈ ws,
        w ∈ out ∨ ∃ c2 page, fetch c2 = .ok page ∧ w ∈ page.results := by
  intro n
  induction n with
  | zero =>
    intro out c ws h w hw
    have hws : out = ws := by injection h
    exact Or.inl (hws ▸ hw)
  | succ k ih =>
    intro out c ws h w hw
    simp only [gcw_go] at h
    cases hf : fetch c with
    | error e => simp only [hf] at h; exact absurd h (by simp)
    | ok j =>
      simp only [hf] at h
      cases hnc : j.next_cursor with
      | none =>
        simp only [hnc] at h
        have hws : out ++ j.results = ws := by injection h
        rcases List.mem_append.mp (hws ▸ hw) with h2 | h2
        · exact Or.inl h2
        · exact Or.inr ⟨c, j, hf, h2⟩
      | some c2 =>
        simp only [hnc] at h
        by_cases hce : c2 = ""
        · rw [if_pos hce] at h
          have hws : out ++ j.results = ws := by injection h
          rcases List.mem_append.mp (hws ▸ hw) with h2 | h2
          · exact Or.inl h2
          · exact Or.inr ⟨c, j, hf, h2⟩
        · rw [if_neg hce] at h
          rcases ih (out ++ j.results) c2 ws h w hw with h1 | h1
          · rcases List.mem_append.mp h1 with h2 | h2
            · exact Or.inl h2
            · exact Or.inr ⟨c, j, hf, h2⟩
          · exact Or.inr h1

theorem mergeSub_snd_mem :
    ∀ (sub : List Work) (m : List (String × Work)) (p : String × Work),
      p ∈ mergeSub m sub → p ∈ m ∨ p.2 ∈ sub := by
  intro sub
  induction sub with
  | nil => intro m p hp; exact Or.inl hp
  | cons s rest ih =>
    intro m p hp
    cases hstep : mergeStep m s with
    | error e =>
      rw [show mergeSub m (s :: rest) = m from by simp [mergeSub, hstep]] at hp
      exact Or.inl hp
    | ok m2 =>
      rw [show mergeSub m (s :: rest) = mergeSub m2 rest from by
        simp [mergeSub, hstep]] at hp
      rcases ih m2 p hp with h1 | h1
      · rcases mergeStep_ok_shape hstep with h2 | ⟨sid, _, h2⟩
        · rw [h2] at h1; exact Or.inl h1
        · rw [h2] at h1
          rcases mem_dictInsert h1 with h3 | h3
          · refine Or.inr ?_
            rw [h3]
            exact List.mem_cons_self s rest
          · exact Or.inl h3
      · exact Or.inr (List.mem_cons_of_mem s h1)

theorem l1Step_mem (provider : String → Nat → String → Except Err Page)
    (p2 g2 : Nat) (m : List (String × Work)) (w : Work) (p : String × Work)
    (hp : p ∈ l1Step provider p2 g2 m w) :
    p ∈ m ∨
      ∃ wid c2 page, provider wid p2 c2 = .ok page ∧ p.2 ∈ page.results := by
  unfold l1Step at hp
  cases ht : truthyId w with
  | none => simp only [ht] at hp; exact Or.inl hp
  | some wid =>
    simp only [ht] at hp
    cases hf : get_citing_works (provider wid p2) g2 with
    | error e => simp only [hf] at hp; exact Or.inl hp
    | ok sub =>
      simp only [hf] at hp
      rcases mergeSub_snd_mem sub m p hp with h2 | h2
      · exact Or.inl h2
      · rcases gcw_results_mem (provider wid p2) g2 [] "*" sub hf p.2 h2 with
          h3 | h3
        · exact absurd h3 (List.not_mem_nil p.2)
        · obtain ⟨c2, page, hpage, hmem⟩ := h3
          exact Or.inr ⟨wid, c2, page, hpage, hmem⟩

theorem l1Fold_mem (provider : String → Nat → String → Except Err Page)
    (p2 g2 : Nat) :
    ∀ (l1 : List Work) (m : List (String × Work)) (p : String × Work),
      p ∈ l1Fold provider p2 g2 m l1 →
      p ∈ m ∨
        ∃ wid c2 page, provider wid p2 c2 = .ok page ∧ p.2 ∈ page.results := by
  intro l1
  induction l1 with
  | nil => intro m p hp; exact Or.inl hp
  | cons w rest ih =>
    intro m p hp
    rcases ih (l1Step provider p2 g2 m w) p hp with h1 | h1
    · exact l1Step_mem provider p2 g2 m w p h1
    · exact Or.inr h1

theorem buildRows_total (lg : ℚ → ℚ) (ifdb : ImpactFactorDB) :
    ∀ sl : List Work, (∀ s ∈ sl, citedGet s ≠ none) →
      ∃ rows, buildRows lg ifdb sl = some rows := by
  intro sl
  induction sl with
  | nil => intro _; exact ⟨[], rfl⟩
  | cons s rest ih =>
    intro h
    obtain ⟨c, hc⟩ := Option.ne_none_iff_exists'.mp
      (h s (List.mem_cons_self s rest))
    obtain ⟨rows, hrows⟩ := ih fun w hw => h w (List.mem_cons_of_mem s hw)
    have hsc : ∃ sc, notability_score lg s ifdb = some sc := by
      unfold notability_score
      rw [hc]
      exact ⟨_, rfl⟩
    obtain ⟨sc, hsc⟩ := hsc
    have hr : ∃ r, buildRow lg ifdb s = some r := by
      unfold buildRow
      rw [hsc]
      exact ⟨_, rfl⟩
    obtain ⟨r, hr⟩ := hr
    exact ⟨r :: rows, by simp [buildRows, hr, hrows]⟩

/-- Claim C9 counterexample.  A fetched record whose `cited_by_count` is
an explicit JSON `null` makes `notability_score` raise a `TypeError`
(`log10(None + 1)`), modelled here as the `none` result — contradicting
"treat the field as a zero default and never raise an error". -/
theorem c9_null_cited_by_count_raises :
    notability_score lgId c9null dbEmpty = none := by decide

/-- Claim C9 (amended).  Absent venue objects, absent or `null` venue
names, absent or empty country codes, absent cited-by counts and
arbitrary (even non-numeric) years are defaulted and never raise:
`notability_score` succeeds on every record whose cited-by count is not
an explicit `null`; `citing_countries` can only fail with the fetch's own
error; and `second_order` over a provider whose records never carry a
`null` cited-by count (and whose first-hop fetch succeeds) raises no
`TypeError` — only the empty-result `KeyError` of
`pd.DataFrame([]).sort_values` remains possible.  A `null` cited-by count
is the one exception, per the counterexample. -/
theorem c9_malformed_fields_defaulted :
    (∀ (lg : ℚ → ℚ) (db : ImpactFactorDB) (w : Work),
        w.cited_by_count ≠ JField.null →
        ∃ q, notability_score lg w db = some q) ∧
      (∀ (provider : String → Nat → String → Except Err Page) (id : String)
          (e : Err),
          citing_countries provider id = .error e →
          get_citing_works (provider id 200) 8 = .error e) ∧
      (∀ (lg : ℚ → ℚ) (provider : String → Nat → String → Except Err Page)
          (id : String) (ifdb : ImpactFactorDB) (p1 g1 p2 g2 : Nat)
          (l1 : List Work),
          get_citing_works (provider id p1) g1 = .ok l1 →
          (∀ wid per cur page, provider wid per cur = .ok page →
            ∀ w ∈ page.results, w.cited_by_count ≠ JField.null) →
          second_order lg provider id ifdb p1 g1 p2 g2 =
              .error .keyError ∨
            ∃ rows,
              second_order lg provider id ifdb p1 g1 p2 g2 = .ok rows) := by
  refine ⟨?_, ?_, ?_⟩
  · intro lg db w h
    obtain ⟨c, hc⟩ := Option.ne_none_iff_exists'.mp (citedGet_ne_none h)
    unfold notability_score
    rw [hc]
    exact ⟨_, rfl⟩
  · intro provider id e h
    unfold citing_countries at h
    split at h
    · rename_i e2 heq
      injection h with h
      rw [← h]
      exact heq
    · exact absurd h (by simp)
  · intro lg provider id ifdb p1 g1 p2 g2 l1 hroot hnn
    have hvals : ∀ s ∈ (l1Fold provider p2 g2 [] l1).map Prod.snd,
        citedGet s ≠ none := by
      intro s hs
      rcases List.mem_map.mp hs with ⟨p, hp, rfl⟩
      rcases l1Fold_mem provider p2 g2 l1 [] p hp with h1 | h1
      · exact absurd h1 (List.not_mem_nil p)
      · obtain ⟨wid, c2, page, hpage, hmem⟩ := h1
        exact citedGet_ne_none (hnn wid p2 c2 page hpage p.2 hmem)
    obtain ⟨rows, hrows⟩ := buildRows_total lg ifdb _ hvals
    simp only [second_order, hroot, hrows]
    by_cases hr : rows = []
    · rw [if_pos hr]
      exact Or.inl rfl
    · rw [if_neg hr]
      exact Or.inr ⟨_, rfl⟩

/-- Witness for C9 (amended): a record with absent title, venue, count
and an institution without fields scores fine, and a pipeline over
default-heavy records (including a `null` venue name and `null` year)
finishes without a `TypeError`. -/
theorem c9_malformed_fields_defaulted_witness :
    (∃ q, notability_score lgZero c9a dbEmpty = some q) ∧
      (second_order lgZero c9provider "W" dbEmpty 1 1 1 1 =
          .error .keyError ∨
        ∃ rows,
          second_order lgZero c9provider "W" dbEmpty 1 1 1 1 = .ok rows) :=
  ⟨c9_malformed_fields_defaulted.1 lgZero dbEmpty c9a (by decide),
    c9_malformed_fields_defaulted.2.2 lgZero c9provider "W" dbEmpty 1 1 1 1
      [c9a] (by decide)
      (by
        intro wid per cur page h w hw
        unfold c9provider at h
        split at h
        · injection h with h
          subst h
          simp only [List.mem_singleton] at hw
          subst hw
          decide
        · split at h
          · injection h with h
            subst h
            simp only [List.mem_singleton] at hw
            subst hw
            decide
          · injection h with h
            subst h
            simp at hw)⟩

/-! ### Every output row has a non-empty identifier (claim C10) -/

theorem mergeSub_id_inv :
    ∀ (sub : List Work) (m : List (String × Work)),
      (∀ p ∈ m, truthyId p.2 = some p.1) →
      ∀ p ∈ mergeSub m sub, truthyId p.2 = some p.1 := by
  intro sub
  induction sub with
  | nil => intro m hm p hp; exact hm p hp
  | cons s rest ih =>
    intro m hm p hp
    cases hstep : mergeStep m s with
    | error e =>
      rw [show mergeSub m (s :: rest) = m from by simp [mergeSub, hstep]] at hp
      exact hm p hp
    | ok m2 =>
      rw [show mergeSub m (s :: rest) = mergeSub m2 rest from by
        simp [mergeSub, hstep]] at hp
      refine ih m2 ?_ p hp
      intro q hq
      rcases mergeStep_ok_shape hstep with h1 | ⟨sid, hts, h1⟩
      · rw [h1] at hq; exact hm q hq
      · rw [h1] at hq
        rcases mem_dictInsert hq with h3 | h3
        · rw [h3]; exact hts
        · exact hm q h3

theorem l1Step_id_inv (provider : String → Nat → String → Except Err Page)
    (p2 g2 : Nat) (m : List (String × Work)) (w : Work)
    (hm : ∀ p ∈ m, truthyId p.2 = some p.1) :
    ∀ p ∈ l1Step provider p2 g2 m w, truthyId p.2 = some p.1 := by
  unfold l1Step
  cases ht : truthyId w with
  | none => simpa using hm
  | some wid =>
    simp only []
    cases hf : get_citing_works (provider wid p2) g2 with
    | error e => simpa using hm
    | ok sub => exact mergeSub_id_inv sub m hm

theorem l1Fold_id_inv (provider : String → Nat → String → Except Err Page)
    (p2 g2 : Nat) :
    ∀ (l1 : List Work) (m : List (String × Work)),
      (∀ p ∈ m, truthyId p.2 = some p.1) →
      ∀ p ∈ l1Fold provider p2 g2 m l1, truthyId p.2 = some p.1 := by
  intro l1
  induction l1 with
  | nil => intro m hm p hp; exact hm p hp
  | cons w rest ih =>
    intro m hm p hp
    exact ih (l1Step provider p2 g2 m w)
      (l1Step_id_inv provider p2 g2 m w hm) p hp

theorem buildRows_mem (lg : ℚ → ℚ) (ifdb : ImpactFactorDB) :
    ∀ (sl : List Work) (rows : List Row) (r : Row),
      buildRows lg ifdb sl = some rows → r ∈ rows →
      ∃ s ∈ sl, buildRow lg ifdb s = some r := by
  intro sl
  induction sl with
  | nil =>
    intro rows r h hr
    injection h with h
    subst h
    simp at hr
  | cons s rest ih =>
    intro rows r h hr
    unfold buildRows at h
    cases hb : buildRow lg ifdb s with
    | none => simp only [hb] at h; exact absurd h (by simp)
    | some r0 =>
      simp only [hb] at h
      cases hrest : buildRows lg ifdb rest with
      | none => simp only [hrest] at h; exact absurd h (by simp)
      | some rows0 =>
        simp only [hrest, Option.map_some] at h
        injection h with h
        subst h
        rcases List.mem_cons.mp hr with h2 | h2
        · exact ⟨s, List.mem_cons_self s rest, h2 ▸ hb⟩
        · obtain ⟨s2, hs2, hb2⟩ := ih rows0 r hrest h2
          exact ⟨s2, List.mem_cons_of_mem s hs2, hb2⟩

theorem buildRow_openalex (lg : ℚ → ℚ) (ifdb : ImpactFactorDB) {s : Work}
    {r : Row} (h : buildRow lg ifdb s = some r) :
    r.openalex_id = jGetD s.id "" := by
  unfold buildRow at h
  cases hn : notability_score lg s ifdb with
  | none => simp only [hn] at h; exact absurd h (by simp)
  | some sc =>
    simp only [hn] at h
    injection h with h
    subst h
    rfl

/-- Claim C10 (confirmed).  Every row of a successful `second_order`
result carries a present, non-empty `openalex_id`: second-hop records
with an absent, `null` or empty id never reach the merged table, and all
table entries keep their truthy id as key. -/
theorem c10_rows_have_nonempty_ids :
    ∀ (lg : ℚ → ℚ) (provider : String → Nat → String → Except Err Page)
      (id : String) (ifdb : ImpactFactorDB) (p1 g1 p2 g2 : Nat)
      (rows : List Row) (r : Row),
      second_order lg provider id ifdb p1 g1 p2 g2 = .ok rows → r ∈ rows →
      ∃ s, r.openalex_id = some s ∧ s ≠ "" := by
  intro lg provider id ifdb p1 g1 p2 g2 rows r h hr
  unfold second_order at h
  split at h
  · exact absurd h (by simp)
  · split at h
    · exact absurd h (by simp)
    · split at h
      · exact absurd h (by simp)
      · injection h with h
        subst h
        rw [List.mem_mergeSort] at hr
        rename_i exc l1 hgcw bopt rows0 hbuild hne
        obtain ⟨s, hs, hbr⟩ := buildRows_mem lg ifdb _ rows0 r hbuild hr
        rcases List.mem_map.mp hs with ⟨p, hp, rfl⟩
        have hid : truthyId p.2 = some p.1 :=
          l1Fold_id_inv provider p2 g2 l1 [] (by intro q hq; simp at hq) p hp
        have hoa : r.openalex_id = jGetD p.2.id "" :=
          buildRow_openalex lg ifdb hbr
        unfold truthyId at hid
        cases hpid : p.2.id with
        | absent => simp [hpid] at hid
        | null => simp [hpid] at hid
        | val t =>
          simp only [hpid] at hid
          by_cases hte : t = ""
          · rw [if_pos hte] at hid; exact absurd hid (by simp)
          · rw [if_neg hte] at hid
            injection hid with hid
            refine ⟨t, ?_, hte⟩
            rw [hoa, hpid, hid]
            rfl

unseal Rat.add List.merge List.mergeSort in
/-- Witness for C10: the id fact applied to a concrete one-row run. -/
theorem c10_rows_have_nonempty_ids_witness :
    ∃ s, c10row.openalex_id = some s ∧ s ≠ "" :=
  c10_rows_have_nonempty_ids lgZero c10provider "R" dbEmpty 1 1 1 1
    [c10row] c10row (by decide) (by decide)

end NiwAssist
